import Mathlib

/-!
Verification development for the security-filtering reverse proxy
(streaming security-assessment pipeline over an Ollama-style backend).

Shallow embedding of the repository sources:
  * `src/types.rs`      — data model (`Content`, `ScanResponse`, detection flags, `StreamError`)
  * `src/security.rs`   — inspector client (`Content::new`, `ContentBuilder`,
    `extract_code_blocks`, `remove_code_blocks`, `parse_api_response`, …)
  * `src/stream.rs`     — `StreamBuffer` and the `SecurityAssessedStream` poll state machine
  * `src/handlers/utils.rs` — the streaming handler's error mapping and
    `format_security_violation_message`

Modelling conventions:
  * Rust `Bytes` payloads are modelled as `String` (every chunk of interest is UTF-8;
    the non-UTF-8 branch of `process_stream_chunk` is unreachable in the model and noted
    where it occurs).
  * Rust byte lengths and byte offsets (`String::len`, slice positions) are modelled as
    character counts and character offsets, uniformly on both sides of every comparison.
  * `serde_json` parsing of an upstream chunk down to its `message.content` string is an
    external-library step; it is abstracted as an explicit parameter
    `parse : String → Option String` threaded through exactly the places the source calls it.
  * Identifier/timestamp bookkeeping fields of `ScanResponse` (`report_id`, `scan_id`,
    `tr_id`, `profile_id`, `profile_name`, masked-data payloads, detection details,
    `created_at`, `completed_at`) carry no logic touched by the claims and are omitted
    from the model; the semantic fields (`category`, `action`, detection flags) are kept.
  * Wall-clock timestamps (`chrono::Utc::now`) are outside the embedding; the
    `created_at` field of the synthesized blocked envelope is rendered as the empty string.
-/

namespace PanwProxy

/-- `types.rs::PromptDetected`: detection flags for a prompt. -/
structure PromptDetected where
  url_cats : Bool := false
  dlp : Bool := false
  injection : Bool := false
  toxic_content : Bool := false
  malicious_code : Bool := false
  agent : Bool := false
  topic_violation : Bool := false
deriving DecidableEq, Repr

/-- `types.rs::ResponseDetected`: detection flags for a response. -/
structure ResponseDetected where
  url_cats : Bool := false
  dlp : Bool := false
  db_security : Bool := false
  toxic_content : Bool := false
  malicious_code : Bool := false
  agent : Bool := false
  ungrounded : Bool := false
  topic_violation : Bool := false
deriving DecidableEq, Repr

/-- `types.rs::ScanResponse` (semantic fields; identifier/timestamp bookkeeping omitted). -/
structure ScanResponse where
  category : String
  action : String
  prompt_detected : PromptDetected := {}
  response_detected : ResponseDetected := {}
deriving DecidableEq, Repr

/-- `types.rs::ScanResponse::default_safe_response`. -/
def ScanResponse.default_safe_response : ScanResponse :=
  { category := "benign", action := "allow" }

/-- `types.rs::Content`: the content envelope submitted to the inspector. -/
structure Content where
  prompt : Option String
  response : Option String
  code_prompt : Option String
  code_response : Option String
  context : Option String
deriving DecidableEq, Repr

/-- `types.rs::StreamError`. -/
inductive StreamError where
  | securityError (msg : String)
  | networkError (msg : String)
deriving DecidableEq, Repr

instance {ε α : Type} [DecidableEq ε] [DecidableEq α] : DecidableEq (Except ε α) := fun x y =>
  match x, y with
  | .ok a, .ok b => decidable_of_iff (a = b) (by simp)
  | .ok _, .error _ => .isFalse (by simp)
  | .error _, .ok _ => .isFalse (by simp)
  | .error e, .error f => decidable_of_iff (e = f) (by simp)

/-! ### Kernel-computable string primitives

The Lean core implementations of `String.splitOn`, `String.trim`,
`String.startsWith`, … are byte-position loops that the kernel cannot evaluate, so
the corresponding Rust operations are modelled by structurally recursive functions on
the character list of a `String`. -/

/-- Split a character list on a single separator character (`str::split('\n')`):
always returns at least one (possibly empty) segment. -/
def splitOnChar (sep : Char) : List Char → List (List Char)
  | [] => [[]]
  | c :: rest =>
      if c = sep then [] :: splitOnChar sep rest
      else
        match splitOnChar sep rest with
        | [] => [[c]]
        | seg :: segs => (c :: seg) :: segs

/-- Split a character list on the leftmost-first, non-overlapping occurrences of a
triple backtick (`str::split("```")`). -/
def splitTicksL : List Char → List (List Char)
  | '\x60' :: '\x60' :: '\x60' :: rest => [] :: splitTicksL rest
  | c :: rest =>
      match splitTicksL rest with
      | [] => [[c]]
      | seg :: segs => (c :: seg) :: segs
  | [] => [[]]

/-- `str::split("```")` on a `String`. -/
def splitTicks (s : String) : List String := (splitTicksL s.data).map String.mk

/-- Rust `str::contains("```")`: the split produces more than one part. -/
def containsTicks (s : String) : Bool := (splitTicks s).length ≠ 1

/-- Re-join parts with the `"```"` separator (inverse direction of `splitTicks`,
used to express "the rest of the string after the first occurrence"). -/
def joinTicks : List String → String
  | [] => ""
  | [p] => p
  | p :: rest => p ++ "```" ++ joinTicks rest

/-- Rust `str::trim` (over the whitespace characters relevant here). -/
def rustTrim (s : String) : String :=
  String.mk (((s.data.dropWhile Char.isWhitespace).reverse.dropWhile
    Char.isWhitespace).reverse)

/-- Rust `str::starts_with("```")`. -/
def startsWithTicks (s : String) : Bool := s.data.take 3 = "```".data

/-- Concatenation of a list of strings (structurally recursive rendering of the
source's accumulation loops). -/
def strConcat : List String → String
  | [] => ""
  | s :: rest => s ++ strConcat rest

/-- `security.rs::SecurityError`. The payload of `RequestError` / `JsonError` is the
underlying error rendered as a string. -/
inductive SecurityError where
  | requestError (msg : String)
  | assessmentError (msg : String)
  | jsonError (msg : String)
  | blockedContent
deriving DecidableEq, Repr

/-- Constructor tag of a `SecurityError`, used to compare error *kinds*. -/
def SecurityError.kind : SecurityError → Nat
  | .requestError _ => 0
  | .assessmentError _ => 1
  | .jsonError _ => 2
  | .blockedContent => 3

/-- `security.rs::Assessment`: result of a security assessment. -/
structure Assessment where
  is_safe : Bool
  category : String
  action : String
  details : ScanResponse
deriving DecidableEq, Repr

/-- `security.rs::Content::new`: fails exactly when all four arguments are `None`
(the `context` field is not among the constructor's parameters and is left absent,
as in `stream.rs::prepare_assessment_content`). -/
def Content.new (prompt response code_prompt code_response : Option String) :
    Except String Content :=
  if prompt.isNone ∧ response.isNone ∧ code_prompt.isNone ∧ code_response.isNone then
    .error "Content must have at least one field populated"
  else
    .ok { prompt := prompt, response := response, code_prompt := code_prompt,
          code_response := code_response, context := none }

/-- `security.rs::ContentBuilder` (all fields default `None`). -/
structure ContentBuilder where
  prompt : Option String := none
  response : Option String := none
  code_prompt : Option String := none
  code_response : Option String := none
deriving DecidableEq, Repr

/-- `security.rs::ContentBuilder::with_prompt`. -/
def ContentBuilder.with_prompt (b : ContentBuilder) (p : String) : ContentBuilder :=
  { b with prompt := some p }

/-- `security.rs::ContentBuilder::with_response`. -/
def ContentBuilder.with_response (b : ContentBuilder) (r : String) : ContentBuilder :=
  { b with response := some r }

/-- `security.rs::ContentBuilder::with_code_prompt`. -/
def ContentBuilder.with_code_prompt (b : ContentBuilder) (c : String) : ContentBuilder :=
  { b with code_prompt := some c }

/-- `security.rs::ContentBuilder::with_code_response`. -/
def ContentBuilder.with_code_response (b : ContentBuilder) (c : String) : ContentBuilder :=
  { b with code_response := some c }

/-- `security.rs::ContentBuilder::build`: delegates to `Content::new`. -/
def ContentBuilder.build (b : ContentBuilder) : Except String Content :=
  Content.new b.prompt b.response b.code_prompt b.code_response

/-- `security.rs::SecurityClient::create_safe_assessment`. -/
def create_safe_assessment : Assessment :=
  { is_safe := true, category := "benign", action := "allow",
    details := ScanResponse.default_safe_response }

/-- `security.rs::SecurityClient::process_scan_result`:
`is_safe = (category == "benign" && action != "block")`. -/
def process_scan_result (scan_result : ScanResponse) : Assessment :=
  { is_safe := scan_result.category = "benign" ∧ scan_result.action ≠ "block",
    category := scan_result.category,
    action := scan_result.action,
    details := scan_result }

/-- Whether an HTTP status is a success status (`reqwest::StatusCode::is_success`,
i.e. `200 ≤ status < 300`). -/
def statusIsSuccess (status : Nat) : Bool :=
  200 ≤ status ∧ status < 300

/-- `security.rs::SecurityClient::parse_api_response`. Every non-2xx status is mapped to
`AssessmentError ("Status {status}: {body}")`; a 2xx body is JSON-decoded into a
`ScanResponse` (`parseScan` stands for `serde_json::from_str`), a decode failure mapping
to `JsonError`. -/
def parse_api_response (parseScan : String → Option ScanResponse)
    (status : Nat) (body_text : String) : Except SecurityError ScanResponse :=
  if ¬ statusIsSuccess status then
    .error (.assessmentError ("Status " ++ toString status ++ ": " ++ body_text))
  else
    match parseScan body_text with
    | some r => .ok r
    | none => .error (.jsonError body_text)

/-- `security.rs::SecurityClient::send_security_request` composed with
`make_api_request`: a transport failure (the `Result` of the HTTP round-trip) is mapped
to `RequestError`; otherwise the `(status, body)` pair is fed to `parse_api_response`. -/
def send_security_request (parseScan : String → Option ScanResponse)
    (transport : Except String (Nat × String)) : Except SecurityError ScanResponse :=
  match transport with
  | .error e => .error (.requestError e)
  | .ok (status, body_text) => parse_api_response parseScan status body_text

/-- Rust `str::lines`: split on `'\n'`, dropping a final empty segment produced by a
trailing newline, and stripping one trailing `'\r'` from each line. -/
def rustLines (s : String) : List String :=
  if s = "" then []
  else
    let parts := (splitOnChar '\n' s.data).map String.mk
    let parts := if parts.getLast? = some "" then parts.dropLast else parts
    parts.map (fun l =>
      if l.data.getLast? = some '\r' then String.mk l.data.dropLast else l)

/-- Loop body state of `security.rs::SecurityClient::extract_code_blocks`:
accumulated code, current line list, `in_code_block`, line buffer, `language_marker`. -/
def extractLoop : List String → String → Bool → String → Bool → String
  | [], code_content, in_code_block, buffer, _ =>
      -- handle case where the content ends with an unclosed code block
      if in_code_block ∧ ¬ buffer = "" then code_content ++ buffer ++ "\n" else code_content
  | line :: rest, code_content, in_code_block, buffer, language_marker =>
      let trimmed := rustTrim line
      if startsWithTicks trimmed then
        if in_code_block then
          extractLoop rest (code_content ++ buffer ++ "\n") false "" language_marker
        else
          extractLoop rest code_content true buffer (trimmed.length > 3)
      else if in_code_block then
        if language_marker then extractLoop rest code_content in_code_block buffer false
        else extractLoop rest code_content in_code_block (buffer ++ line ++ "\n") language_marker
      else extractLoop rest code_content in_code_block buffer language_marker

/-- `security.rs::SecurityClient::extract_code_blocks`. -/
def extract_code_blocks (content : String) : String :=
  extractLoop (rustLines content) "" false "" false

/-- Loop body of `security.rs::SecurityClient::remove_code_blocks`. -/
def removeLoop : List String → Bool → String → String
  | [], _, result => result
  | line :: rest, in_code_block, result =>
      let trimmed := rustTrim line
      if startsWithTicks trimmed then removeLoop rest (¬ in_code_block) result
      else if ¬ in_code_block then removeLoop rest in_code_block (result ++ line ++ "\n")
      else removeLoop rest in_code_block result

/-- `security.rs::SecurityClient::remove_code_blocks`. -/
def remove_code_blocks (content : String) : String :=
  removeLoop (rustLines content) false ""

/-- Reference recursion for the corrected code-extraction claim: the lines lying
outside fenced code blocks, in order (`inb` is the current in-fence state). -/
def outsideLines : Bool → List String → List String
  | _, [] => []
  | inb, l :: ls =>
      if startsWithTicks (rustTrim l) then outsideLines (¬ inb) ls
      else if ¬ inb then l :: outsideLines inb ls
      else outsideLines inb ls

/-- Reference recursion for the corrected code-extraction claim: the fenced code
blocks of a line list, each rendered as its newline-terminated lines (`buf` is the
content of the currently open block); a trailing unterminated block is kept when
non-empty. -/
def collectBlocksS : Bool → String → List String → List String
  | true, buf, [] => if buf = "" then [] else [buf]
  | false, _, [] => []
  | inb, buf, l :: ls =>
      if startsWithTicks (rustTrim l) then
        if inb then buf :: collectBlocksS false "" ls
        else collectBlocksS true buf ls
      else if inb then collectBlocksS inb (buf ++ l ++ "
") ls
      else collectBlocksS inb buf ls

/-- `handlers/utils.rs::format_security_violation_message`: the human-readable
banner listing which detection flags fired. -/
def format_security_violation_message (assessment : Assessment) : String :=
  let reasons : List String :=
    (if assessment.details.prompt_detected.url_cats then ["Prompt contains malicious URLs"] else [])
    ++ (if assessment.details.prompt_detected.dlp then ["Prompt contains sensitive information"] else [])
    ++ (if assessment.details.prompt_detected.injection then ["Prompt contains injection threats"] else [])
    ++ (if assessment.details.prompt_detected.toxic_content then ["Prompt contains harmful content"] else [])
    ++ (if assessment.details.prompt_detected.malicious_code then ["Prompt contains malicious code"] else [])
    ++ (if assessment.details.prompt_detected.agent then ["Prompt contains any Agent related threats"] else [])
    ++ (if assessment.details.prompt_detected.topic_violation then ["Prompt contains any content violates topic guardrails"] else [])
    ++ (if assessment.details.response_detected.url_cats then ["Response contains malicious URLs"] else [])
    ++ (if assessment.details.response_detected.dlp then ["Response contains sensitive information"] else [])
    ++ (if assessment.details.response_detected.db_security then ["Response contains database security threats"] else [])
    ++ (if assessment.details.response_detected.toxic_content then ["Response contains harmful content"] else [])
    ++ (if assessment.details.response_detected.malicious_code then ["Response contains malicious code"] else [])
    ++ (if assessment.details.response_detected.agent then ["Response contains any Agent related threats"] else [])
    ++ (if assessment.details.response_detected.ungrounded then ["Response contains any ungrounded content"] else [])
    ++ (if assessment.details.response_detected.topic_violation then ["Response contains any content violates topic guardrails"] else [])
  let reasons_text :=
    if reasons.isEmpty then "Unspecified security concern"
    else String.intercalate "\n - " reasons
  "\n\n⚠️ This content was blocked due to security policy violations:\n\n" ++
  " • Category: " ++ assessment.category ++ "\n" ++
  " • Action: " ++ assessment.action ++ "\n" ++
  " • Reasons: \n" ++
  "  - " ++ reasons_text ++ "\n\n" ++
  " Please reformulate your request to comply with security policies.\n\n"

/-- Minimal JSON string escaping used when rendering synthesized envelopes
(`serde_json` escaping restricted to the characters that occur in practice). -/
def jsonEscape (s : String) : String :=
  strConcat (s.toList.map (fun c =>
    if c = '"' then "\\\"" else if c = '\\' then "\\\\" else if c = '\n' then "\\n"
    else String.singleton c))

/-- `stream.rs::create_blocked_response`: the synthesized blocked envelope.
`serde_json` serializes object keys in sorted order (`BTreeMap`); the `created_at`
wall-clock timestamp is outside the embedding and rendered empty. -/
def create_blocked_response (assessment : Assessment) : String :=
  "\x7b\"created_at\":\"\",\"done\":true,\"message\":\x7b\"content\":\"" ++
    jsonEscape (format_security_violation_message assessment) ++
    "\",\"role\":\"assistant\"\x7d,\"model\":\"security-filter\"\x7d"

/-- `handlers/utils.rs::handle_streaming_request` error mapping: an `Err` item of the
assessed stream is replaced by a synthesized error record before reaching the client. -/
def mapClientItem (model : String) : Except StreamError String → String
  | .ok bytes => bytes
  | .error _ =>
      "\x7b\"done\":true,\"error\":\"Error processing response\",\"model\":\"" ++
        jsonEscape model ++ "\"\x7d"

/-! ## `stream.rs::StreamBuffer` -/

/-- `stream.rs::StreamBuffer`. `Bytes` chunks are `String`s; byte positions are
character offsets. `sentence_boundary_chars` is a field set by `new` (to `['\n']`). -/
structure StreamBuffer where
  text_buffer : String
  code_buffer : String
  in_code_block : Bool
  read_pos : Nat
  output_buffer : List String
  text_buffer_complete : List String
  code_buffer_complete : List String
  pending_buffer : List String
  assessment_window : Nat
  sentence_boundary_chars : List Char
  last_was_boundary : Bool
  waiting_for_assessment : Bool
  has_complete_text : Bool
  has_complete_code : Bool
  batch_ready : Bool
  accumulating : Bool
  blocked : Bool
  last_assessed_text_pos : Nat
  last_assessed_code_pos : Nat
deriving DecidableEq, Repr

namespace StreamBuffer

/-- `StreamBuffer::new` (capacity reservations have no semantic content). -/
def new : StreamBuffer where
  text_buffer := ""
  code_buffer := ""
  in_code_block := false
  read_pos := 0
  output_buffer := []
  text_buffer_complete := []
  code_buffer_complete := []
  pending_buffer := []
  assessment_window := 100000
  sentence_boundary_chars := ['\n']
  last_was_boundary := false
  waiting_for_assessment := false
  has_complete_text := false
  has_complete_code := false
  batch_ready := false
  accumulating := false
  blocked := false
  last_assessed_text_pos := 0
  last_assessed_code_pos := 0

/-- The `for (i, part) in parts.iter().enumerate()` loop of `StreamBuffer::process`
(the `!part.is_empty()` guards only skip appending `""`, which `++` makes a no-op).
State: remaining parts, index, `in_block`, text and code accumulators. -/
def processParts : List String → Nat → Bool → String → String → String × String × Bool
  | [], _, in_block, text, code => (text, code, in_block)
  | part :: rest, i, in_block, text, code =>
      if i = 0 then
        if ¬ in_block then processParts rest (i + 1) in_block (text ++ part) code
        else processParts rest (i + 1) in_block text (code ++ part)
      else if in_block then processParts rest (i + 1) false text (code ++ part)
      else processParts rest (i + 1) true (text ++ part) code

/-- `StreamBuffer::process`: parse a chunk (`parse` abstracts the `serde_json`
extraction of `message.content`), split it on triple backticks, and merge the parts
into the text/code buffers. `content.contains("```")` is rendered as the split
producing more than one part. -/
def process (parse : String → Option String) (b : StreamBuffer) (chunk : String) :
    StreamBuffer :=
  match parse chunk with
  | none => b
  | some content =>
      let parts := splitTicks content
      if parts.length ≠ 1 then
        let (text, code, in_block) :=
          processParts parts 0 b.in_code_block b.text_buffer b.code_buffer
        { b with text_buffer := text, code_buffer := code, in_code_block := in_block }
      else
        if b.in_code_block then { b with code_buffer := b.code_buffer ++ content }
        else { b with text_buffer := b.text_buffer ++ content }

/-- Rust `str::find("```")` together with the two slices the source takes around it:
`none` when no occurrence; otherwise the text before the first occurrence and the text
after it (`buffer[..pos]`, `buffer[pos + 3..]`). -/
def findTicks (s : String) : Option (String × String) :=
  match splitTicks s with
  | [] => none
  | [_] => none
  | pre :: rest => some (pre, joinTicks rest)

/-- `StreamBuffer::detect_code_blocks`: find a fence in the active buffer and
transition; the content after the marker moves to the opposite buffer, and closing a
fence sets `has_complete_code`. -/
def detect_code_blocks (b : StreamBuffer) : StreamBuffer :=
  let active := if b.in_code_block then b.code_buffer else b.text_buffer
  match findTicks active with
  | none => b
  | some (before, after) =>
      if b.in_code_block then
        { b with code_buffer := before,
                 text_buffer := b.text_buffer ++ after,
                 has_complete_code := true,
                 in_code_block := ¬ b.in_code_block }
      else
        { b with text_buffer := before,
                 code_buffer := b.code_buffer ++ after,
                 in_code_block := ¬ b.in_code_block }

/-- `StreamBuffer::prepare_assessment_content`: envelope carrying only the unassessed
suffixes of the two buffers. -/
def prepare_assessment_content (b : StreamBuffer) (is_prompt : Bool) : Content :=
  let new_text :=
    if b.text_buffer.length > b.last_assessed_text_pos then
      b.text_buffer.drop b.last_assessed_text_pos
    else ""
  let new_code :=
    if b.code_buffer.length > b.last_assessed_code_pos then
      b.code_buffer.drop b.last_assessed_code_pos
    else ""
  let has_new_code := ¬ new_code = ""
  if is_prompt then
    { prompt := some new_text, response := none,
      code_prompt := if has_new_code then some new_code else none,
      code_response := none, context := none }
  else
    { prompt := none, response := some new_text,
      code_prompt := none,
      code_response := if has_new_code then some new_code else none,
      context := none }

/-- The safety check of `get_assessable_chunk` (`stream.rs` lines 283–289): reset a
watermark to 0 when it exceeds its buffer, to prevent subtraction overflow. -/
def watermark_safety_reset (b : StreamBuffer) : StreamBuffer :=
  let b :=
    if b.text_buffer.length < b.last_assessed_text_pos then
      { b with last_assessed_text_pos := 0 }
    else b
  if b.code_buffer.length < b.last_assessed_code_pos then
    { b with last_assessed_code_pos := 0 }
  else b

/-- `StreamBuffer::get_assessable_chunk`. Returns the assessable envelope (if the
trigger fires) together with the mutated buffer (safety watermark resets and the
`last_was_boundary` debounce are in-place mutations in the source). -/
def get_assessable_chunk (b : StreamBuffer) (is_prompt : Bool) :
    Option Content × StreamBuffer :=
  let new_text_content := b.text_buffer.length > b.last_assessed_text_pos
  let new_code_content := b.code_buffer.length > b.last_assessed_code_pos
  if ¬ new_text_content ∧ ¬ new_code_content then (none, b)
  else
    let b := b.watermark_safety_reset
    if b.text_buffer.length - b.last_assessed_text_pos ≥ b.assessment_window
        ∨ b.code_buffer.length - b.last_assessed_code_pos ≥ b.assessment_window then
      (some (b.prepare_assessment_content is_prompt), b)
    else if ¬ b.in_code_block ∧ new_code_content then
      (some (b.prepare_assessment_content is_prompt), b)
    else if new_text_content then
      let last_char := b.text_buffer.toList.getLast?.getD ' '
      if b.sentence_boundary_chars.contains last_char
          ∧ b.text_buffer.length > 15
          ∧ ¬ b.last_was_boundary then
        let b := { b with last_was_boundary := true }
        (some (b.prepare_assessment_content is_prompt), b)
      else if ¬ b.sentence_boundary_chars.contains last_char then
        (none, { b with last_was_boundary := false })
      else (none, b)
    else (none, b)

/-- `StreamBuffer::commit`: on a safe verdict advance both watermarks to the buffer
ends and clear the code buffer (note: the code watermark is set to the code buffer's
length *before* the buffer is cleared). -/
def commit (b : StreamBuffer) (is_safe : Bool) : StreamBuffer :=
  if is_safe then
    { b with read_pos := b.text_buffer.length,
             last_assessed_text_pos := b.text_buffer.length,
             last_assessed_code_pos := b.code_buffer.length,
             code_buffer := "" }
  else b

/-- `StreamBuffer::buffer_pending_chunk`. -/
def buffer_pending_chunk (b : StreamBuffer) (bytes : String) : StreamBuffer :=
  { b with pending_buffer := b.pending_buffer ++ [bytes],
           waiting_for_assessment := true }

/-- `StreamBuffer::mark_batch_ready`. -/
def mark_batch_ready (b : StreamBuffer) : StreamBuffer :=
  if b.has_complete_code ∨ b.has_complete_text then
    { b with batch_ready := true, accumulating := false }
  else b

/-- `StreamBuffer::release_pending_chunks`: route all pending chunks to the code or
text completion buffer (code when some pending chunk's parsed content contains a fence,
or when currently inside a code block), then mark the batch ready. -/
def release_pending_chunks (parse : String → Option String) (b : StreamBuffer) :
    StreamBuffer :=
  let has_code := b.pending_buffer.any (fun bytes =>
    match parse bytes with
    | some content => containsTicks content ∨ b.in_code_block
    | none => false)
  let b :=
    if has_code then
      { b with code_buffer_complete := b.code_buffer_complete ++ b.pending_buffer,
               pending_buffer := [],
               has_complete_code := true }
    else
      { b with text_buffer_complete := b.text_buffer_complete ++ b.pending_buffer,
               pending_buffer := [],
               has_complete_text := true }
  { b.mark_batch_ready with waiting_for_assessment := false }

/-- `StreamBuffer::create_complete_response`: drain the prioritized completion buffer
(code first, then text, then the general output buffer) into one combined chunk;
returns `none` when the combined data is empty. -/
def create_complete_response (b : StreamBuffer) : Option String × StreamBuffer :=
  let (combined_data, b) :=
    if b.has_complete_code then
      (strConcat b.code_buffer_complete,
       { b with code_buffer_complete := [], has_complete_code := false })
    else if b.has_complete_text then
      (strConcat b.text_buffer_complete,
       { b with text_buffer_complete := [], has_complete_text := false })
    else
      (strConcat b.output_buffer, { b with output_buffer := [] })
  let b := { b with batch_ready := false }
  if ¬ combined_data = "" then (some combined_data, b) else (none, b)

/-- `StreamBuffer::get_next_chunk`: only returns content when a batch is ready. -/
def get_next_chunk (b : StreamBuffer) : Option String × StreamBuffer :=
  if b.batch_ready then b.create_complete_response
  else (none, b)

end StreamBuffer

/-! ## `stream.rs::SecurityAssessedStream` -/

/-- The content snapshot captured by `stream.rs::create_security_assessment_future`:
the future clones `buffer.text_buffer` and `buffer.code_buffer` *in full* and submits
them via `assess_content_with_code` (when the code clone is non-empty) or
`assess_content` (text only). -/
structure Submission where
  text_content : String
  code_content : String
deriving DecidableEq, Repr

/-- `stream.rs::create_security_assessment_future` (the snapshot it captures). -/
def create_security_assessment_future (buffer : StreamBuffer) : Submission :=
  { text_content := buffer.text_buffer, code_content := buffer.code_buffer }

/-- Whether the submission's future would call `assess_content_with_code`
(code non-empty) rather than `assess_content`. -/
def Submission.usesCodePath (s : Submission) : Bool :=
  ¬ s.code_content = ""

/-- `stream.rs::SecurityAssessedStream` state (the wrapped inner stream is driven by
the event lists below; the security client and model name influence nothing modelled). -/
structure SAStream where
  buffer : StreamBuffer
  assessment_fut : Option Submission
  finished : Bool
  retry_count : Nat
  is_prompt : Bool
deriving DecidableEq, Repr

/-- `SecurityAssessedStream::new`. -/
def SAStream.new (is_prompt : Bool) : SAStream where
  buffer := StreamBuffer.new
  assessment_fut := none
  finished := false
  retry_count := 0
  is_prompt := is_prompt

/-- `SecurityAssessedStream::process_assessment_result` acting on the buffer
(the future is cleared by the caller in the model, mirroring `*assessment_fut = None`).
Returns the updated buffer, the new retry count, and the immediate response if any
(the blocked envelope on an unsafe verdict). -/
def process_assessment_result (parse : String → Option String) (assessment : Assessment)
    (buffer : StreamBuffer) (retry_count : Nat) :
    StreamBuffer × Nat × Option String :=
  if ¬ assessment.is_safe then
    let blocked := create_blocked_response assessment
    ({ buffer with pending_buffer := [],
                   waiting_for_assessment := false,
                   accumulating := false,
                   blocked := true }, 0, some blocked)
  else if buffer.text_buffer = "" ∧ buffer.code_buffer = "" ∧ buffer.pending_buffer = [] then
    (buffer.commit true, retry_count, none)
  else
    (StreamBuffer.release_pending_chunks parse (buffer.commit true), retry_count, none)

/-- `SecurityAssessedStream::process_stream_chunk`: parse and merge the chunk, run
fence detection, hold the chunk in the pending buffer, and create an assessment future
when the trigger predicate fires. The source's fallback branch (`if
!buffer.waiting_for_assessment`) is translated as written, although it is dead code:
`buffer_pending_chunk` has just set `waiting_for_assessment`. The non-UTF-8 branch of
the source cannot arise for `String` chunks. The function's `Option<Result<…>>` return
is `None` on every path and is omitted. -/
def process_stream_chunk (parse : String → Option String) (is_prompt : Bool)
    (bytes : String) (buffer : StreamBuffer) :
    StreamBuffer × Option Submission :=
  let buffer := buffer.process parse bytes
  let buffer := buffer.detect_code_blocks
  let buffer := buffer.buffer_pending_chunk bytes
  match buffer.get_assessable_chunk is_prompt with
  | (some _, buffer) =>
      ({ buffer with waiting_for_assessment := true },
       some (create_security_assessment_future buffer))
  | (none, buffer) =>
      if ¬ buffer.waiting_for_assessment then
        ({ buffer with waiting_for_assessment := true },
         some (create_security_assessment_future buffer))
      else (buffer, none)

/-- `SecurityAssessedStream::process_stream_end`: when unassessed content remains at
upstream end, create a final assessment future and advance both watermarks to the
buffer ends. The function's `Option<Result<…>>` return is `None` on every path and is
omitted. -/
def process_stream_end (buffer : StreamBuffer) : StreamBuffer × Option Submission :=
  let new_text_content := buffer.text_buffer.length > buffer.last_assessed_text_pos
  let new_code_content := buffer.code_buffer.length > buffer.last_assessed_code_pos
  if new_text_content ∨ new_code_content then
    let fut := create_security_assessment_future buffer
    ({ buffer with last_assessed_text_pos := buffer.text_buffer.length,
                   last_assessed_code_pos := buffer.code_buffer.length }, some fut)
  else (buffer, none)

/-- One event resolving the future a `poll_next` invocation awaits: the completion of
the in-flight assessment (ok or error), the next upstream item (chunk, transport error,
or end of stream), or "not ready yet" (`Poll::Pending` of the awaited future). -/
inductive Event where
  | assessOk (a : Assessment)
  | assessErr (e : StreamError)
  | chunkOk (bytes : String)
  | chunkErr (msg : String)
  | streamEnd
  | notReady
deriving DecidableEq, Repr

/-- Observable outcome of one step of the poll loop: an emitted stream item
(`Poll::Ready(Some(_))`), end of stream (`Poll::Ready(None)`), or suspension
(`Poll::Pending`). A step that merely continues the loop produces no outcome. -/
inductive StepOut where
  | item (it : Except StreamError String)
  | ended
  | suspend
deriving DecidableEq, Repr

/-- The body of `poll_next_impl`'s loop, consuming one event. Mirrors lines 858–943 of
`stream.rs`: the `finished` check; then, with an assessment future in flight, its three
poll outcomes; otherwise the inner stream's three poll outcomes. An event that the
state could not be awaiting (an assessment event with no future in flight, or vice
versa) is a no-op, since the corresponding future is not polled by the source. An
empty outcome list stands for the loop continuing to its next await (the source's
`continue` / fall-through), whose resolving event is consumed by the next step. -/
def pollCore (parse : String → Option String) (s : SAStream) (e : Event) :
    SAStream × List StepOut :=
  if s.finished then (s, [.ended])
  else
    match s.assessment_fut with
    | some _ =>
        match e with
        | .assessOk assessment =>
            let (buffer, retry, response?) :=
              process_assessment_result parse assessment s.buffer s.retry_count
            let s := { s with buffer := buffer, retry_count := retry,
                              assessment_fut := none }
            match response? with
            | some blocked => (s, [.item (.ok blocked)])
            | none =>
                match s.buffer.get_next_chunk with
                | (some bytes, buffer) => ({ s with buffer := buffer }, [.item (.ok bytes)])
                | (none, buffer) => ({ s with buffer := buffer }, [])
        | .assessErr err => ({ s with assessment_fut := none }, [.item (.error err)])
        | .notReady => (s, [.suspend])
        | .chunkOk _ => (s, [])
        | .chunkErr _ => (s, [])
        | .streamEnd => (s, [])
    | none =>
        match e with
        | .chunkOk bytes =>
            let (buffer, fut?) := process_stream_chunk parse s.is_prompt bytes s.buffer
            let s := { s with buffer := buffer, assessment_fut := fut? }
            match fut? with
            | some _ => (s, [.suspend])
            | none =>
                match s.buffer.get_next_chunk with
                | (some out, buffer) => ({ s with buffer := buffer }, [.item (.ok out)])
                | (none, buffer) => ({ s with buffer := buffer }, [])
        | .chunkErr msg => (s, [.item (.error (.networkError msg))])
        | .streamEnd =>
            let (buffer, fut?) := process_stream_end s.buffer
            let s := { s with buffer := buffer, assessment_fut := fut? }
            match fut? with
            | some _ => (s, [.suspend])
            | none =>
                match s.buffer.get_next_chunk with
                | (some out, buffer) => ({ s with buffer := buffer }, [.item (.ok out)])
                | (none, buffer) => ({ s with buffer := buffer, finished := true }, [.ended])
        | .notReady => (s, [.suspend])
        | .assessOk _ => (s, [])
        | .assessErr _ => (s, [])

/-- One `poll_next` invocation consuming one event. The entry of `poll_next_impl`
first terminates a blocked stream (lines 848–851) and then drains an already-ready
batch (lines 853–856); a batch drained at entry is emitted before the loop body runs,
which the model renders by prepending that emission to the same step (the subsequent
poll re-checks `blocked` — unchanged — and `get_next_chunk` — now unready — and
proceeds to the loop exactly as the model does). -/
def pollOnce (parse : String → Option String) (s : SAStream) (e : Event) :
    SAStream × List StepOut :=
  if s.buffer.blocked then ({ s with finished := true }, [.ended])
  else
    match s.buffer.get_next_chunk with
    | (some bytes, buffer) =>
        let (s', outs) := pollCore parse { s with buffer := buffer } e
        (s', .item (.ok bytes) :: outs)
    | (none, buffer) => pollCore parse { s with buffer := buffer } e

/-- Drive the stream over a list of events, collecting all outcomes. -/
def run (parse : String → Option String) (s : SAStream) : List Event → SAStream × List StepOut
  | [] => (s, [])
  | e :: rest =>
      let (s', outs) := pollOnce parse s e
      let (s'', outs') := run parse s' rest
      (s'', outs ++ outs')

/-- Drive the stream over a list of events, tagging every outcome with the list of
events consumed up to and including the step that produced it (`pre` is the already
consumed prefix). -/
def runOuts (parse : String → Option String) (s : SAStream) (pre : List Event) :
    List Event → List (List Event × StepOut)
  | [] => []
  | e :: rest =>
      let (s', outs) := pollOnce parse s e
      outs.map (fun o => (pre ++ [e], o)) ++ runOuts parse s' (pre ++ [e]) rest

/-! ## Concrete instantiations used by witnesses and counterexamples -/

/-- Identity content extraction instantiating the abstract `parse` parameter on
concrete traces (each chunk is its own `message.content`). -/
def idContentParse : String → Option String := fun c => some c

/-- A concrete allow verdict. -/
def allowAssessment : Assessment :=
  { is_safe := true, category := "benign", action := "allow",
    details := ScanResponse.default_safe_response }

/-- A concrete block verdict. -/
def blockAssessment : Assessment :=
  { is_safe := false, category := "malicious", action := "block",
    details := { category := "malicious", action := "block" } }

/-- A session in which a code fence is split across chunks: the closing fence is
detected by `detect_code_blocks` (setting `has_complete_code` with an empty
`code_buffer_complete`), the four held chunks are then released to the *text*
completion buffer (none of them contains a whole fence), the stale
`has_complete_code` flag makes `create_complete_response` drain the empty code
buffer and drop the ready batch, and a later code-routed release is emitted first. -/
def staleFlagTrace : List Event :=
  [.chunkOk "abc``", .chunkOk "`x", .chunkOk "``", .chunkOk "`",
   .assessOk allowAssessment,
   .chunkOk "wow```print(1)```done here now ok\n",
   .assessOk allowAssessment, .streamEnd]

/-! ## Claim theorems -/

/-- **C10** (amended): `Content::new` (and `ContentBuilder::build`, which delegates to
it) fails exactly when all four of `prompt`, `response`, `code_prompt`,
`code_response` are *absent* (`None`); a present but empty field already makes
construction succeed. -/
theorem c10_content_new_succeeds_iff_some_field_present
    (p r cp cr : Option String) (b : ContentBuilder) :
    ((Content.new p r cp cr).isOk = true ↔
      ¬ (p = none ∧ r = none ∧ cp = none ∧ cr = none))
    ∧ b.build = Content.new b.prompt b.response b.code_prompt b.code_response := by
  constructor
  · unfold Content.new
    split <;> rename_i h <;>
      simp_all [Option.isNone_iff_eq_none, Except.isOk, Except.toBool]
  · rfl

/-- **C10** counterexample to the claim as stated: with every field absent or empty
(`prompt = Some("")`, the rest `None`) construction nevertheless succeeds. -/
theorem c10_counterexample_empty_prompt_accepted :
    Content.new (some "") none none none
      = .ok { prompt := some "", response := none, code_prompt := none,
              code_response := none, context := none } := by decide

/-- **C10** witness: a non-empty field makes construction succeed, via the amended
theorem. -/
theorem c10_witness :
    (Content.new (some "x") none none none).isOk = true :=
  (c10_content_new_succeeds_iff_some_field_present (some "x") none none none
    {}).1.mpr (by simp)

/-- **C7** (amended): the inspector client maps *every* non-2xx status — 401, 403 and
429 included — uniformly to `AssessmentError` carrying the status and body; a
transport failure maps to `RequestError`; an unparseable 2xx body maps to
`JsonError`; a parseable 2xx body yields the scan response with no error. -/
theorem c7_api_response_error_mapping (parseScan : String → Option ScanResponse)
    (status : Nat) (body e : String) (r : ScanResponse) :
    (statusIsSuccess status = false →
      parse_api_response parseScan status body =
        .error (.assessmentError ("Status " ++ toString status ++ ": " ++ body)))
    ∧ (statusIsSuccess status = true → parseScan body = some r →
        parse_api_response parseScan status body = .ok r)
    ∧ (statusIsSuccess status = true → parseScan body = none →
        parse_api_response parseScan status body = .error (.jsonError body))
    ∧ send_security_request parseScan (.error e) = .error (.requestError e) := by
  refine ⟨fun h1 => ?_, fun h1 h2 => ?_, fun h1 h2 => ?_, rfl⟩
  · simp [parse_api_response, h1]
  · simp [parse_api_response, h1, h2]
  · simp [parse_api_response, h1, h2]

/-- **C7** counterexample to the claim as stated: HTTP 401, 403 and 429 are *not*
mapped to distinct error variants — each produces the same `AssessmentError`
constructor as any other non-2xx status (there is no `Unauthenticated`, `Forbidden`
or `RateLimited` variant in `SecurityError`). -/
theorem c7_counterexample_401_not_distinguished :
    parse_api_response (fun _ => some ScanResponse.default_safe_response) 401 "denied"
      = .error (.assessmentError "Status 401: denied")
    ∧ parse_api_response (fun _ => some ScanResponse.default_safe_response) 403 "denied"
      = .error (.assessmentError "Status 403: denied")
    ∧ parse_api_response (fun _ => some ScanResponse.default_safe_response) 429 "denied"
      = .error (.assessmentError "Status 429: denied")
    ∧ SecurityError.kind (.assessmentError "Status 401: denied")
        = SecurityError.kind (.assessmentError "Status 500: oops") := by decide

/-- **C7** witness: the amended mapping applied at a concrete 500 response. -/
theorem c7_witness :
    parse_api_response (fun _ => some ScanResponse.default_safe_response) 500 "oops"
      = .error (.assessmentError "Status 500: oops") :=
  (c7_api_response_error_mapping (fun _ => some ScanResponse.default_safe_response)
    500 "oops" "" ScanResponse.default_safe_response).1 (by decide)

/-- **C5** (code bug): the assessment future submits the *full* `text_buffer` and
`code_buffer`, not the unassessed suffixes. At a buffer whose first 14 characters were
already assessed (`last_assessed_text_pos = 14`), `prepare_assessment_content`
computes the suffix `"NEW"` — exactly what the spec prescribes — but
`create_security_assessment_future` snapshots the whole buffer, resubmitting the
already-cleared prefix. -/
theorem c5_assessment_future_submits_full_buffers :
    create_security_assessment_future
        { StreamBuffer.new with text_buffer := "old text done.NEW",
                                last_assessed_text_pos := 14 }
      = { text_content := "old text done.NEW", code_content := "" }
    ∧ (StreamBuffer.prepare_assessment_content
        { StreamBuffer.new with text_buffer := "old text done.NEW",
                                last_assessed_text_pos := 14 } false).response
        = some "NEW"
    ∧ ("old text done.NEW" : String) ≠ "NEW" := by decide

/-- **C6** counterexample to the claim as stated: the sentence boundary characters
are only `['\n']` (`StreamBuffer::new`), so a text buffer ending in `'.'` with length
19 > 15 and `last_was_boundary = false` does **not** trigger an assessment. -/
theorem c6_counterexample_period_no_trigger :
    (({ StreamBuffer.new with text_buffer := "This is a sentence." } : StreamBuffer)
        |>.text_buffer.toList.getLast?.getD ' ') = '.'
    ∧ ("This is a sentence." : String).length > 15
    ∧ StreamBuffer.new.last_was_boundary = false
    ∧ (({ StreamBuffer.new with text_buffer := "This is a sentence." } : StreamBuffer)
        |>.get_assessable_chunk false).1 = none := by decide

/-- A stream state holding one chunk pending while an assessment is in flight. -/
def heldPendingState : SAStream :=
  { SAStream.new false with
      buffer := { StreamBuffer.new with
                    pending_buffer := ["held chunk"],
                    text_buffer := "held chunk",
                    waiting_for_assessment := true },
      assessment_fut := some { text_content := "held chunk", code_content := "" } }

/-- **C4** counterexample to the claim as stated: on an in-flight assessment error
the stream emits the error item but does *not* release the held chunks (the pending
buffer is unchanged and nothing reaches the completion buffers) and does *not*
advance the watermark. -/
theorem c4_counterexample_error_keeps_chunks_held :
    (pollOnce idContentParse heldPendingState
        (.assessErr (.securityError "HTTP 429"))).2
      = [.item (.error (.securityError "HTTP 429"))]
    ∧ (pollOnce idContentParse heldPendingState
        (.assessErr (.securityError "HTTP 429"))).1
      = { heldPendingState with assessment_fut := none }
    ∧ heldPendingState.buffer.pending_buffer = ["held chunk"]
    ∧ heldPendingState.buffer.last_assessed_text_pos = 0 := by decide

/-- **C9** counterexample to the claim as stated: a safe `commit` sets the code
watermark to the code buffer's length and then clears the buffer, after which the
defensive reset inside `get_assessable_chunk` (reached once a chunk appends new text)
moves the code watermark back from 1 to 0 — the watermark *decreases* across a
sequence of buffer operations. -/
theorem c9_counterexample_code_watermark_decreases :
    (({ StreamBuffer.new with text_buffer := "hi", code_buffer := "x" } : StreamBuffer)
        |>.commit true).last_assessed_code_pos = 1
    ∧ (((({ StreamBuffer.new with text_buffer := "hi", code_buffer := "x" } : StreamBuffer)
        |>.commit true).process idContentParse "a").get_assessable_chunk
          false).2.last_assessed_code_pos = 0 := by decide

/-- **C8** counterexample to the claim as stated: with a language tag on the opening
fence, the extractor discards the whole *first line inside the block* (not just the
tag), so the content `"secret"` survives in neither output and no recombination of
the two outputs reproduces the original minus fence markers and language tag. -/
theorem c8_counterexample_language_tag_loses_first_line :
    extract_code_blocks "```py\nsecret\n```" = "\n"
    ∧ remove_code_blocks "```py\nsecret\n```" = ""
    ∧ remove_code_blocks "```py\nsecret\n```" ++ extract_code_blocks "```py\nsecret\n```"
        ≠ "secret\n"
    ∧ extract_code_blocks "```py\nsecret\n```" ++ remove_code_blocks "```py\nsecret\n```"
        ≠ "secret\n" := by decide

/-- **C3** (code bug): a trace with only safe verdicts on which delivery violates
both receipt order and content conservation. The four fence-split chunks are released
to the text completion buffer while a stale `has_complete_code` flag (set by
`detect_code_blocks` when the fence closed) makes the drain inspect the *empty* code
buffer and drop the ready batch; a later chunk is then code-routed and emitted first,
and the stream finishes with the four earlier chunks still undelivered. -/
theorem c3_order_and_conservation_violated :
    (run idContentParse (SAStream.new false) staleFlagTrace).2 =
      [.suspend, .suspend, .item (.ok "wow```print(1)```done here now ok\n"), .ended]
    ∧ (run idContentParse (SAStream.new false) staleFlagTrace).1.buffer.text_buffer_complete
        = ["abc``", "`x", "``", "`"]
    ∧ (run idContentParse (SAStream.new false) staleFlagTrace).1.finished = true
    ∧ ("wow```print(1)```done here now ok\n" : String)
        ≠ "abc``" ++ "`x" ++ "``" ++ "`" ++ "wow```print(1)```done here now ok\n" := by
  decide

/-- **C1** counterexample to the claim as stated: when a chunk arrives while no
assessment is in flight and no trigger fires, *no* assessment is issued — the chunk is
simply held (the fallback branch of `process_stream_chunk` is dead code, because
`buffer_pending_chunk` has already set `waiting_for_assessment`). -/
theorem c1_counterexample_no_assessment_issued :
    (SAStream.new false).assessment_fut = none
    ∧ (pollOnce idContentParse (SAStream.new false) (.chunkOk "hi")).1.assessment_fut
        = none
    ∧ (pollOnce idContentParse (SAStream.new false) (.chunkOk "hi")).1.buffer.pending_buffer
        = ["hi"] := by decide

/-- **C6** (amended): with new unassessed text below the window, valid watermarks and
no just-closed code block, the assessment predicate triggers iff the text buffer ends
in `'\n'` — the only sentence boundary character installed by `StreamBuffer::new` —
the *entire* text buffer (not merely its unassessed suffix) is longer than 15
characters, and `last_was_boundary` was false; afterwards `last_was_boundary` is true
exactly when the terminal character is a boundary and (it already was true or the
length test passes), and it resets to false on a non-boundary terminal character. -/
theorem c6_newline_boundary_trigger (b : StreamBuffer) (ip : Bool)
    (hchars : b.sentence_boundary_chars = ['\n'])
    (htext : b.last_assessed_text_pos < b.text_buffer.length)
    (hwt : b.text_buffer.length - b.last_assessed_text_pos < b.assessment_window)
    (hcode : b.last_assessed_code_pos ≤ b.code_buffer.length)
    (hwc : b.code_buffer.length - b.last_assessed_code_pos < b.assessment_window)
    (hnocode : b.in_code_block = true ∨ b.code_buffer.length ≤ b.last_assessed_code_pos) :
    ((b.get_assessable_chunk ip).1.isSome = true ↔
      (b.text_buffer.toList.getLast?.getD ' ' = '\n'
        ∧ b.text_buffer.length > 15 ∧ b.last_was_boundary = false))
    ∧ (b.get_assessable_chunk ip).2.last_was_boundary =
        (if b.text_buffer.toList.getLast?.getD ' ' = '\n'
         then b.last_was_boundary || decide (b.text_buffer.length > 15)
         else false) := by
  have hne : ¬ (¬ b.text_buffer.length > b.last_assessed_text_pos
      ∧ ¬ b.code_buffer.length > b.last_assessed_code_pos) := by
    intro h; exact h.1 htext
  have hst : ¬ b.text_buffer.length < b.last_assessed_text_pos := by omega
  have hsc : ¬ b.code_buffer.length < b.last_assessed_code_pos := by omega
  have hwin : ¬ (b.text_buffer.length - b.last_assessed_text_pos ≥ b.assessment_window
      ∨ b.code_buffer.length - b.last_assessed_code_pos ≥ b.assessment_window) := by
    omega
  have hcc : ¬ (b.in_code_block = false ∧ b.last_assessed_code_pos < b.code_buffer.length) := by
    rcases hnocode with h | h
    · intro hx; rw [h] at hx; exact Bool.noConfusion hx.1
    · intro hx; omega
  by_cases h1 : b.text_buffer.toList.getLast?.getD ' ' = '\n' <;>
    by_cases h2 : b.text_buffer.length > 15 <;>
    by_cases h3 : b.last_was_boundary <;>
      simp [StreamBuffer.get_assessable_chunk, StreamBuffer.watermark_safety_reset,
            String.toList, hne, hst, hsc, hwin, hcc, htext, hchars, h1, h2, h3]
        at h1 ⊢ <;>
      simp_all [String.toList]

/-- **C6** witness: a 21-character text buffer ending in a newline triggers the
amended predicate. -/
theorem c6_witness :
    ((({ StreamBuffer.new with text_buffer := "hello world sentence\n" } : StreamBuffer)
        |>.get_assessable_chunk false).1.isSome = true) :=
  (c6_newline_boundary_trigger
      { StreamBuffer.new with text_buffer := "hello world sentence\n" } false
      (by decide) (by decide) (by decide) (by decide) (by decide)
      (Or.inr (by decide))).1.mpr (by decide)

/-- **C4** (amended): on an in-flight inspection error the stream clears the
assessment future and emits the error item downstream — which the streaming handler
converts to a synthesized error record — while the held chunks stay in the pending
buffer, the watermarks stay where they were, and the stream is not finished; the held
chunks are delivered only if a later assessment (such as the final end-of-stream one)
completes safely. -/
theorem c4_inspector_error_degrades (parse : String → Option String)
    (s : SAStream) (sub : Submission) (err : StreamError) (m : String)
    (hb : s.buffer.blocked = false) (hr : s.buffer.batch_ready = false)
    (hf : s.finished = false) (hfut : s.assessment_fut = some sub) :
    pollOnce parse s (.assessErr err)
      = ({ s with assessment_fut := none }, [.item (.error err)])
    ∧ mapClientItem m (.error err)
        = "\x7b\"done\":true,\"error\":\"Error processing response\",\"model\":\""
            ++ jsonEscape m ++ "\"\x7d" := by
  refine ⟨?_, rfl⟩
  simp [pollOnce, hb, StreamBuffer.get_next_chunk, hr, pollCore, hf, hfut]

/-- **C4** witness: the amended behaviour at a concrete held-chunk state. -/
theorem c4_witness :
    pollOnce idContentParse heldPendingState (.assessErr (.networkError "timeout"))
      = ({ heldPendingState with assessment_fut := none },
         [.item (.error (.networkError "timeout"))]) :=
  (c4_inspector_error_degrades idContentParse heldPendingState
      { text_content := "held chunk", code_content := "" }
      (.networkError "timeout") "m" (by decide) (by decide) (by decide) rfl).1

/-- Once the buffer is blocked, every further poll terminates the stream without
touching the event that resolved (shared helper for the block-terminal claim). -/
theorem run_blocked_ends (parse : String → Option String) :
    ∀ (evs : List Event) (s : SAStream), s.buffer.blocked = true →
      (run parse s evs).1.buffer.blocked = true
        ∧ (run parse s evs).2 = evs.map (fun _ => .ended) := by
  intro evs
  induction evs with
  | nil => intro s hb; simpa [run] using hb
  | cons e rest ih =>
      intro s hb
      have hstep : pollOnce parse s e = ({ s with finished := true }, [.ended]) := by
        simp [pollOnce, hb]
      have := ih { s with finished := true } (by simpa using hb)
      simp [run, hstep, this.1, this.2]

/-- **C2**: a blocked stream is terminal. Once `blocked` is set, every poll returns
end-of-stream without reading or forwarding anything and `blocked` never becomes
false again; and the unsafe-verdict step is the unique step that sets it: it clears
the pending buffer, sets `blocked`, and emits exactly the synthesized blocked
envelope. -/
theorem c2_blocked_is_terminal (parse : String → Option String) :
    (∀ (s : SAStream) (e : Event), s.buffer.blocked = true →
        pollOnce parse s e = ({ s with finished := true }, [.ended]))
    ∧ (∀ (s : SAStream) (evs : List Event), s.buffer.blocked = true →
        (run parse s evs).1.buffer.blocked = true
          ∧ (run parse s evs).2 = evs.map (fun _ => .ended))
    ∧ (∀ (s : SAStream) (a : Assessment) (sub : Submission),
        s.buffer.blocked = false → s.buffer.batch_ready = false →
        s.finished = false → s.assessment_fut = some sub → a.is_safe = false →
        pollOnce parse s (.assessOk a) =
          ({ s with
              buffer := { s.buffer with
                            pending_buffer := [],
                            waiting_for_assessment := false,
                            accumulating := false,
                            blocked := true },
              assessment_fut := none,
              retry_count := 0 },
           [.item (.ok (create_blocked_response a))])) := by
  refine ⟨fun s e hb => by simp [pollOnce, hb],
          fun s evs hb => run_blocked_ends parse evs s hb,
          fun s a sub hb hr hf hfut ha => ?_⟩
  simp [pollOnce, hb, StreamBuffer.get_next_chunk, hr, pollCore, hf, hfut,
        process_assessment_result, ha]

/-- **C2** witness: the three parts applied at a concrete stream: blocking a held
chunk emits the blocked envelope, and the blocked stream then only reports
end-of-stream for every subsequent event. -/
theorem c2_witness :
    pollOnce idContentParse heldPendingState (.assessOk blockAssessment)
      = ({ heldPendingState with
              buffer := { heldPendingState.buffer with
                            pending_buffer := [],
                            waiting_for_assessment := false,
                            accumulating := false,
                            blocked := true },
              assessment_fut := none,
              retry_count := 0 },
         [.item (.ok (create_blocked_response blockAssessment))])
    ∧ (run idContentParse
          { heldPendingState with
              buffer := { heldPendingState.buffer with blocked := true } }
          [.chunkOk "later", .streamEnd]).2 = [.ended, .ended] := by
  constructor
  · exact (c2_blocked_is_terminal idContentParse).2.2 heldPendingState blockAssessment
      { text_content := "held chunk", code_content := "" }
      (by decide) (by decide) (by decide) rfl (by decide)
  · exact ((c2_blocked_is_terminal idContentParse).2.1
      { heldPendingState with
          buffer := { heldPendingState.buffer with blocked := true } }
      [.chunkOk "later", .streamEnd] (by decide)).2

/-- The safety reset leaves each watermark unchanged unless its buffer is shorter
than it, in which case it becomes 0; all other fields are untouched. -/
theorem watermark_safety_reset_spec (b : StreamBuffer) :
    (b.watermark_safety_reset.last_assessed_text_pos = b.last_assessed_text_pos
      ∨ (b.watermark_safety_reset.last_assessed_text_pos = 0
          ∧ b.text_buffer.length < b.last_assessed_text_pos))
    ∧ (b.watermark_safety_reset.last_assessed_code_pos = b.last_assessed_code_pos
      ∨ (b.watermark_safety_reset.last_assessed_code_pos = 0
          ∧ b.code_buffer.length < b.last_assessed_code_pos)) := by
  unfold StreamBuffer.watermark_safety_reset
  simp only []
  split_ifs <;> simp_all

/-- **C9** (amended): across the `StreamBuffer` operations the watermarks
`last_assessed_text_pos` / `last_assessed_code_pos` never decrease, with one
exception: the defensive reset inside `get_assessable_chunk`, which sets a watermark
to 0 exactly when its buffer has become shorter than it (as happens for the code
watermark right after a safe `commit` sets it to the length of a non-empty code
buffer and then clears that buffer). `commit` and the end-of-stream watermark update
are non-decreasing whenever the watermark is within its buffer (invariant I1); every
other operation leaves the watermarks untouched. -/
theorem c9_watermark_monotonicity (parse : String → Option String)
    (b : StreamBuffer) (c : String) (ip safe : Bool) :
    ((b.process parse c).last_assessed_text_pos = b.last_assessed_text_pos
      ∧ (b.process parse c).last_assessed_code_pos = b.last_assessed_code_pos)
    ∧ (b.detect_code_blocks.last_assessed_text_pos = b.last_assessed_text_pos
      ∧ b.detect_code_blocks.last_assessed_code_pos = b.last_assessed_code_pos)
    ∧ ((b.buffer_pending_chunk c).last_assessed_text_pos = b.last_assessed_text_pos
      ∧ (b.buffer_pending_chunk c).last_assessed_code_pos = b.last_assessed_code_pos)
    ∧ ((StreamBuffer.release_pending_chunks parse b).last_assessed_text_pos
          = b.last_assessed_text_pos
      ∧ (StreamBuffer.release_pending_chunks parse b).last_assessed_code_pos
          = b.last_assessed_code_pos)
    ∧ (b.mark_batch_ready.last_assessed_text_pos = b.last_assessed_text_pos
      ∧ b.mark_batch_ready.last_assessed_code_pos = b.last_assessed_code_pos)
    ∧ (b.create_complete_response.2.last_assessed_text_pos = b.last_assessed_text_pos
      ∧ b.create_complete_response.2.last_assessed_code_pos = b.last_assessed_code_pos)
    ∧ (b.get_next_chunk.2.last_assessed_text_pos = b.last_assessed_text_pos
      ∧ b.get_next_chunk.2.last_assessed_code_pos = b.last_assessed_code_pos)
    ∧ (b.last_assessed_text_pos ≤ b.text_buffer.length →
        b.last_assessed_text_pos ≤ (b.commit safe).last_assessed_text_pos)
    ∧ (b.last_assessed_code_pos ≤ b.code_buffer.length →
        b.last_assessed_code_pos ≤ (b.commit safe).last_assessed_code_pos)
    ∧ ((b.get_assessable_chunk ip).2.last_assessed_text_pos = b.last_assessed_text_pos
        ∨ ((b.get_assessable_chunk ip).2.last_assessed_text_pos = 0
            ∧ b.text_buffer.length < b.last_assessed_text_pos))
    ∧ ((b.get_assessable_chunk ip).2.last_assessed_code_pos = b.last_assessed_code_pos
        ∨ ((b.get_assessable_chunk ip).2.last_assessed_code_pos = 0
            ∧ b.code_buffer.length < b.last_assessed_code_pos))
    ∧ (b.last_assessed_text_pos ≤ b.text_buffer.length →
        b.last_assessed_text_pos ≤ (process_stream_end b).1.last_assessed_text_pos)
    ∧ (b.last_assessed_code_pos ≤ b.code_buffer.length →
        b.last_assessed_code_pos ≤ (process_stream_end b).1.last_assessed_code_pos) := by
  refine ⟨?_, ?_, ⟨rfl, rfl⟩, ?_, ?_, ?_, ?_, ?_, ?_, ?_, ?_, ?_, ?_⟩
  · unfold StreamBuffer.process
    cases hp : parse c with
    | none => exact ⟨rfl, rfl⟩
    | some content =>
        simp only
        rcases hpp : StreamBuffer.processParts (splitTicks content) 0 b.in_code_block
          b.text_buffer b.code_buffer with ⟨t, cd, ib⟩
        split
        · simp [hpp]
        · split <;> exact ⟨rfl, rfl⟩
  · unfold StreamBuffer.detect_code_blocks
    simp only []
    split
    · exact ⟨rfl, rfl⟩
    · split <;> exact ⟨rfl, rfl⟩
  · unfold StreamBuffer.release_pending_chunks StreamBuffer.mark_batch_ready
    simp only []
    split_ifs <;> simp
  · unfold StreamBuffer.mark_batch_ready
    split <;> simp
  · by_cases h1 : b.has_complete_code <;> by_cases h2 : b.has_complete_text <;>
      simp [StreamBuffer.create_complete_response, h1, h2] <;> split <;> simp
  · by_cases h0 : b.batch_ready <;> by_cases h1 : b.has_complete_code <;>
      by_cases h2 : b.has_complete_text <;>
      simp [StreamBuffer.get_next_chunk, StreamBuffer.create_complete_response,
            h0, h1, h2] <;> split <;> simp
  · unfold StreamBuffer.commit
    intro h; split <;> simp [h]
  · unfold StreamBuffer.commit
    intro h; split <;> simp [h]
  · have hr := watermark_safety_reset_spec b
    unfold StreamBuffer.get_assessable_chunk
    simp only []
    split_ifs <;> simp_all
  · have hr := watermark_safety_reset_spec b
    unfold StreamBuffer.get_assessable_chunk
    simp only []
    split_ifs <;> simp_all
  · intro h; unfold process_stream_end
    simp only []
    split <;> simp [h]
  · intro h; unfold process_stream_end
    simp only []
    split <;> simp [h]

/-- **C9** witness: the conditional monotonicity facts applied at a concrete buffer
with valid watermarks. -/
theorem c9_witness :
    StreamBuffer.new.last_assessed_text_pos
      ≤ (StreamBuffer.new.commit true).last_assessed_text_pos :=
  ((c9_watermark_monotonicity idContentParse StreamBuffer.new "c" false
      true).2.2.2.2.2.2.2).1 (by decide)

/-- The remove loop appends exactly the outside lines, each newline-terminated
(shared helper for the code-extraction claim). -/
theorem removeLoop_spec :
    ∀ (ls : List String) (inb : Bool) (acc : String),
      removeLoop ls inb acc
        = acc ++ strConcat ((outsideLines inb ls).map (fun l => l ++ "\n")) := by
  intro ls
  induction ls with
  | nil => intro inb acc; simp [removeLoop, outsideLines, strConcat]
  | cons l rest ih =>
      intro inb acc
      by_cases hf : startsWithTicks (rustTrim l) <;> by_cases hi : inb = true <;>
        simp [removeLoop, outsideLines, hf, hi, ih, strConcat, String.append_assoc]

/-- The extract loop appends, per code block, the block's newline-terminated lines
followed by one extra newline, provided no opening fence carries a language tag
(shared helper for the code-extraction claim). -/
theorem extractLoop_spec :
    ∀ (ls : List String),
      (∀ l ∈ ls, startsWithTicks (rustTrim l) = true → rustTrim l = "```") →
      ∀ (code : String) (inb : Bool) (buf : String),
        extractLoop ls code inb buf false
          = code ++ strConcat ((collectBlocksS inb buf ls).map (fun blk => blk ++ "\n")) := by
  intro ls
  induction ls with
  | nil =>
      intro _ code inb buf
      cases inb with
      | false => simp [extractLoop, collectBlocksS, strConcat]
      | true =>
          by_cases hb : buf = "" <;>
            simp [extractLoop, collectBlocksS, strConcat, hb, String.append_assoc]
  | cons l rest ih =>
      intro hlang code inb buf
      have hrest : ∀ x ∈ rest, startsWithTicks (rustTrim x) = true → rustTrim x = "```" :=
        fun x hx => hlang x (List.mem_cons_of_mem l hx)
      by_cases hf : startsWithTicks (rustTrim l)
      · have h3 : rustTrim l = "```" := hlang l (List.mem_cons_self l rest) hf
        have hlen : ¬ ((rustTrim l).length > 3) := by rw [h3]; decide
        cases inb with
        | true =>
            simp [extractLoop, collectBlocksS, hf, hlen, ih hrest,
                  strConcat, String.append_assoc]
        | false =>
            simp [extractLoop, collectBlocksS, hf, hlen, ih hrest]
      · cases inb with
        | true =>
            simp [extractLoop, collectBlocksS, hf, ih hrest]
        | false =>
            simp [extractLoop, collectBlocksS, hf, ih hrest]

/-- **C8** (amended): the helpers are line-oriented, not position-oriented: a line
whose trimmed form starts with ``` is a fence delimiter line. `remove_code_blocks`
returns exactly the lines outside fenced blocks, each newline-terminated. Provided no
opening fence carries a language tag, `extract_code_blocks` returns, per code block
(including a trailing unterminated non-empty block), the block's newline-terminated
lines followed by one *extra* newline. (When a fence does carry a language tag, the
first line *inside* the block is discarded — see the counterexample — and the exact
character-level round-trip of the original claim fails because of the extra newline
per block and the newline-termination of the final line.) -/
theorem c8_extract_remove_line_structure (content : String)
    (hlang : ∀ l ∈ rustLines content,
        startsWithTicks (rustTrim l) = true → rustTrim l = "```") :
    remove_code_blocks content
      = strConcat ((outsideLines false (rustLines content)).map (fun l => l ++ "\n"))
    ∧ extract_code_blocks content
      = strConcat ((collectBlocksS false "" (rustLines content)).map
          (fun blk => blk ++ "\n")) := by
  constructor
  · have h := removeLoop_spec (rustLines content) false ""
    simpa [remove_code_blocks] using h
  · have h := extractLoop_spec (rustLines content) hlang "" false ""
    simpa [extract_code_blocks] using h

/-- **C8** witness: the amended characterization at a balanced, untagged input. -/
theorem c8_witness :
    remove_code_blocks "a\n```\nx\n```\nb"
      = strConcat ((outsideLines false (rustLines "a\n```\nx\n```\nb")).map
          (fun l => l ++ "\n"))
    ∧ extract_code_blocks "a\n```\nx\n```\nb"
      = strConcat ((collectBlocksS false "" (rustLines "a\n```\nx\n```\nb")).map
          (fun blk => blk ++ "\n")) :=
  c8_extract_remove_line_structure "a\n```\nx\n```\nb" (by decide)

/-! ## No-unassessed-emission (claim C1): invariant machinery -/

/-- A batch originating from a safe verdict: the bytes are the concatenation of
chunks all received strictly before some safe verdict consumed within `pre`. -/
def OkBatch (pre : List Event) (bytes : String) : Prop :=
  ∃ cs p1 a p2, bytes = strConcat cs
    ∧ pre = p1 ++ Event.assessOk a :: p2 ∧ a.is_safe = true
    ∧ ∀ c ∈ cs, Event.chunkOk c ∈ p1

/-- Origin property of an emitted `Ok` item: either the synthesized blocked envelope
of an unsafe verdict consumed in `pre`, or a safe-verdict-covered batch. -/
def OkEmissionOrigin (pre : List Event) (bytes : String) : Prop :=
  (∃ a, a.is_safe = false ∧ bytes = create_blocked_response a ∧ Event.assessOk a ∈ pre)
  ∨ OkBatch pre bytes

/-- Inductive invariant over the consumed event prefix: every pending chunk arrived
as an upstream chunk event; the general output buffer is empty (nothing in
`stream.rs` ever fills it); and whenever a completion buffer is non-empty, some safe
verdict was consumed after the arrival of every chunk now sitting there. -/
def BufInvB (pre : List Event) (b : StreamBuffer) : Prop :=
  (∀ c ∈ b.pending_buffer, Event.chunkOk c ∈ pre)
  ∧ b.output_buffer = []
  ∧ (b.text_buffer_complete ++ b.code_buffer_complete ≠ [] →
      ∃ p1 a p2, pre = p1 ++ Event.assessOk a :: p2 ∧ a.is_safe = true
        ∧ ∀ c ∈ b.text_buffer_complete ++ b.code_buffer_complete,
            Event.chunkOk c ∈ p1)

theorem okBatch_mono {pre : List Event} {bytes : String} (h : OkBatch pre bytes)
    (e : Event) : OkBatch (pre ++ [e]) bytes := by
  obtain ⟨cs, p1, a, p2, h1, h2, h3, h4⟩ := h
  exact ⟨cs, p1, a, p2 ++ [e], h1, by rw [h2]; simp, h3, h4⟩

theorem okEmissionOrigin_mono {pre : List Event} {bytes : String}
    (h : OkEmissionOrigin pre bytes) (e : Event) :
    OkEmissionOrigin (pre ++ [e]) bytes := by
  rcases h with ⟨a, h1, h2, h3⟩ | h
  · exact Or.inl ⟨a, h1, h2, List.mem_append_left _ h3⟩
  · exact Or.inr (okBatch_mono h e)

theorem bufInvB_mono {pre : List Event} {b : StreamBuffer} (h : BufInvB pre b)
    (e : Event) : BufInvB (pre ++ [e]) b := by
  obtain ⟨h1, h2, h3⟩ := h
  refine ⟨fun c hc => List.mem_append_left _ (h1 c hc), h2, fun hne => ?_⟩
  obtain ⟨p1, a, p2, hp, hs, hm⟩ := h3 hne
  exact ⟨p1, a, p2 ++ [e], by rw [hp]; simp, hs, hm⟩

/-- `process` leaves the four chunk lists untouched. -/
theorem process_chunk_lists (parse : String → Option String) (b : StreamBuffer)
    (c : String) :
    (b.process parse c).pending_buffer = b.pending_buffer
    ∧ (b.process parse c).text_buffer_complete = b.text_buffer_complete
    ∧ (b.process parse c).code_buffer_complete = b.code_buffer_complete
    ∧ (b.process parse c).output_buffer = b.output_buffer := by
  unfold StreamBuffer.process
  cases hp : parse c with
  | none => exact ⟨rfl, rfl, rfl, rfl⟩
  | some content =>
      simp only
      rcases hpp : StreamBuffer.processParts (splitTicks content) 0 b.in_code_block
        b.text_buffer b.code_buffer with ⟨t, cd, ib⟩
      split
      · simp [hpp]
      · split <;> exact ⟨rfl, rfl, rfl, rfl⟩

/-- `detect_code_blocks` leaves the four chunk lists untouched. -/
theorem detect_code_blocks_chunk_lists (b : StreamBuffer) :
    b.detect_code_blocks.pending_buffer = b.pending_buffer
    ∧ b.detect_code_blocks.text_buffer_complete = b.text_buffer_complete
    ∧ b.detect_code_blocks.code_buffer_complete = b.code_buffer_complete
    ∧ b.detect_code_blocks.output_buffer = b.output_buffer := by
  unfold StreamBuffer.detect_code_blocks
  simp only []
  split
  · exact ⟨rfl, rfl, rfl, rfl⟩
  · split <;> exact ⟨rfl, rfl, rfl, rfl⟩

/-- The watermark safety reset leaves the four chunk lists untouched. -/
theorem watermark_safety_reset_chunk_lists (b : StreamBuffer) :
    b.watermark_safety_reset.pending_buffer = b.pending_buffer
    ∧ b.watermark_safety_reset.text_buffer_complete = b.text_buffer_complete
    ∧ b.watermark_safety_reset.code_buffer_complete = b.code_buffer_complete
    ∧ b.watermark_safety_reset.output_buffer = b.output_buffer := by
  unfold StreamBuffer.watermark_safety_reset
  simp only []
  split_ifs <;> simp

/-- `get_assessable_chunk` leaves the four chunk lists of the returned buffer
untouched. -/
theorem get_assessable_chunk_chunk_lists (b : StreamBuffer) (ip : Bool) :
    (b.get_assessable_chunk ip).2.pending_buffer = b.pending_buffer
    ∧ (b.get_assessable_chunk ip).2.text_buffer_complete = b.text_buffer_complete
    ∧ (b.get_assessable_chunk ip).2.code_buffer_complete = b.code_buffer_complete
    ∧ (b.get_assessable_chunk ip).2.output_buffer = b.output_buffer := by
  have hr := watermark_safety_reset_chunk_lists b
  unfold StreamBuffer.get_assessable_chunk
  simp only []
  split_ifs <;> simp_all

/-- `commit` leaves the four chunk lists untouched. -/
theorem commit_chunk_lists (b : StreamBuffer) (safe : Bool) :
    (b.commit safe).pending_buffer = b.pending_buffer
    ∧ (b.commit safe).text_buffer_complete = b.text_buffer_complete
    ∧ (b.commit safe).code_buffer_complete = b.code_buffer_complete
    ∧ (b.commit safe).output_buffer = b.output_buffer := by
  unfold StreamBuffer.commit
  split <;> exact ⟨rfl, rfl, rfl, rfl⟩

/-- `release_pending_chunks` empties the pending buffer, keeps the output buffer,
and moves the pending chunks behind the existing completion content. -/
theorem release_pending_chunks_spec (parse : String → Option String)
    (b : StreamBuffer) :
    (StreamBuffer.release_pending_chunks parse b).pending_buffer = []
    ∧ (StreamBuffer.release_pending_chunks parse b).output_buffer = b.output_buffer
    ∧ ∀ c ∈ (StreamBuffer.release_pending_chunks parse b).text_buffer_complete
          ++ (StreamBuffer.release_pending_chunks parse b).code_buffer_complete,
        c ∈ (b.text_buffer_complete ++ b.code_buffer_complete) ++ b.pending_buffer := by
  unfold StreamBuffer.release_pending_chunks StreamBuffer.mark_batch_ready
  simp only []
  split_ifs <;> simp [List.mem_append] <;> tauto

/-- `create_complete_response` keeps the pending buffer. -/
theorem create_complete_response_pending (b : StreamBuffer) :
    b.create_complete_response.2.pending_buffer = b.pending_buffer := by
  unfold StreamBuffer.create_complete_response
  by_cases h1 : b.has_complete_code = true <;> by_cases h2 : b.has_complete_text = true <;>
    simp [h1, h2] <;> split <;> simp

/-- `create_complete_response` keeps an empty output buffer empty. -/
theorem create_complete_response_output (b : StreamBuffer)
    (hout : b.output_buffer = []) :
    b.create_complete_response.2.output_buffer = [] := by
  unfold StreamBuffer.create_complete_response
  by_cases h1 : b.has_complete_code = true <;> by_cases h2 : b.has_complete_text = true <;>
    simp [h1, h2, hout] <;> split <;> simp

/-- The completion content remaining after `create_complete_response` is a subset of
the old completion content. -/
theorem create_complete_response_subset (b : StreamBuffer) :
    ∀ c ∈ b.create_complete_response.2.text_buffer_complete
        ++ b.create_complete_response.2.code_buffer_complete,
      c ∈ b.text_buffer_complete ++ b.code_buffer_complete := by
  unfold StreamBuffer.create_complete_response
  by_cases h1 : b.has_complete_code = true <;> by_cases h2 : b.has_complete_text = true <;>
    simp [h1, h2, List.mem_append] <;> split <;> simp [List.mem_append] <;> tauto

/-- A batch emitted by `create_complete_response` (with an empty output buffer) is
the concatenation of a non-empty list of chunks drawn from the completion buffers. -/
theorem create_complete_response_emit (b : StreamBuffer)
    (hout : b.output_buffer = []) :
    ∀ out, b.create_complete_response.1 = some out →
      ∃ cs, out = strConcat cs ∧ cs ≠ []
        ∧ ∀ c ∈ cs, c ∈ b.text_buffer_complete ++ b.code_buffer_complete := by
  intro out ho
  unfold StreamBuffer.create_complete_response at ho
  by_cases h1 : b.has_complete_code = true
  · by_cases hg : strConcat b.code_buffer_complete = ""
    · simp [h1, hg] at ho
    · simp [h1, hg] at ho
      refine ⟨b.code_buffer_complete, ho.symm, ?_,
        fun c hc => List.mem_append_right _ hc⟩
      intro hcs
      rw [hcs] at hg
      exact hg rfl
  · by_cases h2 : b.has_complete_text = true
    · by_cases hg : strConcat b.text_buffer_complete = ""
      · simp [h1, h2, hg] at ho
      · simp [h1, h2, hg] at ho
        refine ⟨b.text_buffer_complete, ho.symm, ?_,
          fun c hc => List.mem_append_left _ hc⟩
        intro hcs
        rw [hcs] at hg
        exact hg rfl
    · simp [h1, h2, hout, strConcat] at ho


/-- Transport `BufInvB` across equality of the four chunk-list fields. -/
theorem bufInvB_congr {pre : List Event} {b b' : StreamBuffer} (h : BufInvB pre b)
    (h1 : b'.pending_buffer = b.pending_buffer)
    (h2 : b'.output_buffer = b.output_buffer)
    (h3 : b'.text_buffer_complete = b.text_buffer_complete)
    (h4 : b'.code_buffer_complete = b.code_buffer_complete) : BufInvB pre b' := by
  obtain ⟨hp, ho, hc⟩ := h
  refine ⟨fun c hc2 => hp c (h1 ▸ hc2), by rw [h2]; exact ho, fun hne => ?_⟩
  rw [h3, h4] at hne ⊢
  exact hc hne

/-- `get_next_chunk` preserves the buffer invariant and only emits safe-covered
batches. -/
theorem get_next_chunk_inv (pre : List Event) (b : StreamBuffer)
    (h : BufInvB pre b) :
    BufInvB pre b.get_next_chunk.2
    ∧ ∀ out, b.get_next_chunk.1 = some out → OkBatch pre out := by
  obtain ⟨hp, ho, hc⟩ := h
  unfold StreamBuffer.get_next_chunk
  split
  · refine ⟨⟨?_, create_complete_response_output b ho, ?_⟩, ?_⟩
    · intro c hcp
      rw [create_complete_response_pending b] at hcp
      exact hp c hcp
    · intro hne
      have hsub := create_complete_response_subset b
      have hold : b.text_buffer_complete ++ b.code_buffer_complete ≠ [] := by
        intro hnil
        apply hne
        cases hx : b.create_complete_response.2.text_buffer_complete
            ++ b.create_complete_response.2.code_buffer_complete with
        | nil => rfl
        | cons c cs =>
            have := hsub c (by rw [hx]; exact List.mem_cons_self c cs)
            rw [hnil] at this
            cases this
      obtain ⟨p1, a, p2, hpre, hs, hm⟩ := hc hold
      exact ⟨p1, a, p2, hpre, hs, fun c hcc => hm c (hsub c hcc)⟩
    · intro out hout2
      obtain ⟨cs, hcs1, hcs2, hcs3⟩ := create_complete_response_emit b ho out hout2
      have hold : b.text_buffer_complete ++ b.code_buffer_complete ≠ [] := by
        obtain ⟨c0, hc0⟩ := List.exists_mem_of_ne_nil cs hcs2
        intro hnil
        have := hcs3 c0 hc0
        rw [hnil] at this
        cases this
      obtain ⟨p1, a, p2, hpre, hs, hm⟩ := hc hold
      exact ⟨cs, p1, a, p2, hcs1, hpre, hs, fun c hcc => hm c (hcs3 c hcc)⟩
  · exact ⟨⟨hp, ho, hc⟩, fun out hout2 => by simp at hout2⟩

/-- `process_stream_chunk` preserves the buffer invariant once the consumed chunk
event is appended to the prefix: the chunk is appended to the pending buffer and the
completion buffers are untouched. -/
theorem process_stream_chunk_inv (parse : String → Option String) (ip : Bool)
    (bytes : String) (b : StreamBuffer) (pre : List Event)
    (h : BufInvB pre b) :
    BufInvB (pre ++ [Event.chunkOk bytes])
      (process_stream_chunk parse ip bytes b).1 := by
  obtain ⟨hp, ho, hc⟩ := h
  have l1 := process_chunk_lists parse b bytes
  have l2 := detect_code_blocks_chunk_lists (b.process parse bytes)
  have l4 := get_assessable_chunk_chunk_lists
    (((b.process parse bytes).detect_code_blocks).buffer_pending_chunk bytes) ip
  have hbp : (((b.process parse bytes).detect_code_blocks).buffer_pending_chunk
      bytes).pending_buffer = b.pending_buffer ++ [bytes] := by
    simp [StreamBuffer.buffer_pending_chunk, l2.1, l1.1]
  have hbt : (((b.process parse bytes).detect_code_blocks).buffer_pending_chunk
      bytes).text_buffer_complete = b.text_buffer_complete := by
    simp [StreamBuffer.buffer_pending_chunk, l2.2.1, l1.2.1]
  have hbc : (((b.process parse bytes).detect_code_blocks).buffer_pending_chunk
      bytes).code_buffer_complete = b.code_buffer_complete := by
    simp [StreamBuffer.buffer_pending_chunk, l2.2.2.1, l1.2.2.1]
  have hbo : (((b.process parse bytes).detect_code_blocks).buffer_pending_chunk
      bytes).output_buffer = b.output_buffer := by
    simp [StreamBuffer.buffer_pending_chunk, l2.2.2.2, l1.2.2.2]
  have hfields : ∀ b4 : StreamBuffer,
      b4.pending_buffer = b.pending_buffer ++ [bytes] →
      b4.text_buffer_complete = b.text_buffer_complete →
      b4.code_buffer_complete = b.code_buffer_complete →
      b4.output_buffer = b.output_buffer →
      BufInvB (pre ++ [Event.chunkOk bytes]) b4 := by
    intro b4 f1 f2 f3 f4
    refine ⟨?_, ?_, ?_⟩
    · intro c hcp
      rw [f1] at hcp
      rcases List.mem_append.mp hcp with hin | hin
      · exact List.mem_append_left _ (hp c hin)
      · rw [List.mem_singleton.mp hin]
        exact List.mem_append_right _ (List.mem_singleton.mpr rfl)
    · rw [f4]; exact ho
    · intro hne
      rw [f2, f3] at hne ⊢
      obtain ⟨p1, a, p2, hpre, hs, hm⟩ := hc hne
      exact ⟨p1, a, p2 ++ [Event.chunkOk bytes], by rw [hpre]; simp, hs, hm⟩
  unfold process_stream_chunk
  simp only []
  split
  · rename_i cnt buffer heq
    rw [heq] at l4
    try dsimp only at l4
    exact bufInvB_congr
      (hfields buffer (l4.1.trans hbp) (l4.2.1.trans hbt) (l4.2.2.1.trans hbc)
        (l4.2.2.2.trans hbo)) rfl rfl rfl rfl
  · rename_i buffer heq
    rw [heq] at l4
    try dsimp only at l4
    have hb4 := hfields buffer (l4.1.trans hbp) (l4.2.1.trans hbt)
      (l4.2.2.1.trans hbc) (l4.2.2.2.trans hbo)
    split
    · exact bufInvB_congr hb4 rfl rfl rfl rfl
    · exact hb4

set_option maxHeartbeats 800000 in
set_option maxRecDepth 8000 in
/-- `process_assessment_result` preserves the buffer invariant once the consumed
verdict event is appended to the prefix, and only produces an immediate response for
an unsafe verdict (the blocked envelope). -/
theorem process_assessment_result_inv (parse : String → Option String)
    (a : Assessment) (b : StreamBuffer) (retry : Nat) (pre : List Event)
    (h : BufInvB pre b) :
    BufInvB (pre ++ [Event.assessOk a]) (process_assessment_result parse a b retry).1
    ∧ (∀ out, (process_assessment_result parse a b retry).2.2 = some out →
        a.is_safe = false ∧ out = create_blocked_response a) := by
  obtain ⟨hp, ho, hc⟩ := h
  unfold process_assessment_result
  by_cases hs : a.is_safe = true
  · simp only [hs, not_true, if_neg, ite_false, ite_true, not_false_iff]
    by_cases hempty : b.text_buffer = "" ∧ b.code_buffer = "" ∧ b.pending_buffer = []
    · have lc := commit_chunk_lists b true
      rw [if_pos hempty]
      try dsimp only
      refine ⟨⟨?_, ?_, ?_⟩, by simp⟩
      · intro c hcp
        rw [lc.1] at hcp
        exact List.mem_append_left _ (hp c hcp)
      · rw [lc.2.2.2]; exact ho
      · intro hne
        rw [lc.2.1, lc.2.2.1] at hne ⊢
        obtain ⟨p1, a', p2, hpre, hs', hm⟩ := hc hne
        exact ⟨p1, a', p2 ++ [Event.assessOk a], by rw [hpre]; simp, hs', hm⟩
    · have lc := commit_chunk_lists b true
      have lr := release_pending_chunks_spec parse (b.commit true)
      rw [if_neg hempty]
      try dsimp only
      refine ⟨⟨?_, ?_, ?_⟩, by simp⟩
      · intro c hcp
        rw [lr.1] at hcp
        cases hcp
      · rw [lr.2.1, lc.2.2.2]; exact ho
      · intro _
        refine ⟨pre, a, [], by simp, hs, ?_⟩
        intro c hcc
        have := lr.2.2 c hcc
        rw [lc.2.1, lc.2.2.1, lc.1] at this
        rcases List.mem_append.mp this with hin | hin
        · have hne2 : b.text_buffer_complete ++ b.code_buffer_complete ≠ [] := by
            intro hnil; rw [hnil] at hin; cases hin
          obtain ⟨p1, a', p2, hpre, _, hm⟩ := hc hne2
          rw [hpre]
          exact List.mem_append_left _ (hm c hin)
        · exact hp c hin
  · have hsf : a.is_safe = false := by
      cases hx : a.is_safe
      · rfl
      · exact absurd hx hs
    rw [if_pos hs]
    try dsimp only
    refine ⟨⟨?_, ?_, ?_⟩, ?_⟩
    · intro c hcp; cases hcp
    · exact ho
    · intro hne
      obtain ⟨p1, a', p2, hpre, hs', hm⟩ := hc hne
      exact ⟨p1, a', p2 ++ [Event.assessOk a], by rw [hpre]; simp, hs', hm⟩
    · intro out hout2
      cases hout2
      exact ⟨hsf, rfl⟩

/-- `process_stream_end` leaves the four chunk lists untouched. -/
theorem process_stream_end_chunk_lists (b : StreamBuffer) :
    (process_stream_end b).1.pending_buffer = b.pending_buffer
    ∧ (process_stream_end b).1.text_buffer_complete = b.text_buffer_complete
    ∧ (process_stream_end b).1.code_buffer_complete = b.code_buffer_complete
    ∧ (process_stream_end b).1.output_buffer = b.output_buffer := by
  unfold process_stream_end
  simp only []
  split <;> simp

set_option maxHeartbeats 1000000 in
set_option maxRecDepth 8000 in
/-- One loop step of `poll_next` preserves the buffer invariant and every `Ok` item
it emits has a legitimate origin. -/
theorem pollCore_inv (parse : String → Option String) (s : SAStream)
    (pre : List Event) (e : Event) (h : BufInvB pre s.buffer) :
    BufInvB (pre ++ [e]) (pollCore parse s e).1.buffer
    ∧ ∀ o ∈ (pollCore parse s e).2, ∀ bts, o = StepOut.item (.ok bts) →
        OkEmissionOrigin (pre ++ [e]) bts := by
  by_cases hf : s.finished = true
  · refine ⟨?_, ?_⟩
    · simp only [pollCore, hf, if_true, ite_true]
      exact bufInvB_mono h e
    · simp only [pollCore, hf, if_true, ite_true]
      intro o ho bts hbts
      subst hbts
      simp at ho
  · cases hfut : s.assessment_fut with
    | some sub =>
        cases e with
        | assessOk a =>
            rcases hpa : process_assessment_result parse a s.buffer s.retry_count
              with ⟨buf1, retry1, resp⟩
            have hinv := process_assessment_result_inv parse a s.buffer
              s.retry_count pre h
            rw [hpa] at hinv
            dsimp only at hinv
            cases resp with
            | some blk =>
                have hblk := hinv.2 blk rfl
                refine ⟨?_, ?_⟩ <;>
                  simp only [pollCore, hf, hfut, if_false, ite_false, if_neg,
                    hpa]
                · exact bufInvB_congr hinv.1 rfl rfl rfl rfl
                · intro o ho bts hbts
                  subst hbts
                  simp at ho
                  subst ho
                  exact Or.inl ⟨a, hblk.1, hblk.2,
                    List.mem_append_right _ (List.mem_singleton.mpr rfl)⟩
            | none =>
                rcases hgc : buf1.get_next_chunk with ⟨res, buf2⟩
                have hgn := get_next_chunk_inv (pre ++ [Event.assessOk a]) buf1
                  hinv.1
                rw [hgc] at hgn
                dsimp only at hgn
                cases res with
                | some bts0 =>
                    refine ⟨?_, ?_⟩ <;>
                      simp only [pollCore, hf, hfut, hpa, hgc]
                    · exact bufInvB_congr hgn.1 rfl rfl rfl rfl
                    · intro o ho bts hbts
                      subst hbts
                      simp at ho
                      subst ho
                      exact Or.inr (hgn.2 _ rfl)
                | none =>
                    refine ⟨?_, ?_⟩ <;>
                      simp only [pollCore, hf, hfut, hpa, hgc]
                    · exact bufInvB_congr hgn.1 rfl rfl rfl rfl
                    · intro o ho bts hbts
                      subst hbts
                      simp at ho
        | assessErr err =>
            refine ⟨?_, ?_⟩ <;> simp only [pollCore, hf, hfut]
            · exact bufInvB_mono h _
            · intro o ho bts hbts
              subst hbts
              simp at ho
        | chunkOk bytes =>
            refine ⟨?_, ?_⟩ <;> simp only [pollCore, hf, hfut]
            · exact bufInvB_mono h _
            · intro o ho bts hbts
              subst hbts
              simp at ho
        | chunkErr msg =>
            refine ⟨?_, ?_⟩ <;> simp only [pollCore, hf, hfut]
            · exact bufInvB_mono h _
            · intro o ho bts hbts
              subst hbts
              simp at ho
        | streamEnd =>
            refine ⟨?_, ?_⟩ <;> simp only [pollCore, hf, hfut]
            · exact bufInvB_mono h _
            · intro o ho bts hbts
              subst hbts
              simp at ho
        | notReady =>
            refine ⟨?_, ?_⟩ <;> simp only [pollCore, hf, hfut]
            · exact bufInvB_mono h _
            · intro o ho bts hbts
              subst hbts
              simp at ho
    | none =>
        cases e with
        | chunkOk bytes =>
            rcases hpc : process_stream_chunk parse s.is_prompt bytes s.buffer
              with ⟨buf1, fut2⟩
            have hinv := process_stream_chunk_inv parse s.is_prompt bytes
              s.buffer pre h
            rw [hpc] at hinv
            dsimp only at hinv
            cases fut2 with
            | some sub2 =>
                refine ⟨?_, ?_⟩ <;> simp only [pollCore, hf, hfut, hpc]
                · exact bufInvB_congr hinv rfl rfl rfl rfl
                · intro o ho bts hbts
                  subst hbts
                  simp at ho
            | none =>
                rcases hgc : buf1.get_next_chunk with ⟨res, buf2⟩
                have hgn := get_next_chunk_inv (pre ++ [Event.chunkOk bytes])
                  buf1 hinv
                rw [hgc] at hgn
                dsimp only at hgn
                cases res with
                | some bts0 =>
                    refine ⟨?_, ?_⟩ <;> simp only [pollCore, hf, hfut, hpc, hgc]
                    · exact bufInvB_congr hgn.1 rfl rfl rfl rfl
                    · intro o ho bts hbts
                      subst hbts
                      simp at ho
                      subst ho
                      exact Or.inr (hgn.2 _ rfl)
                | none =>
                    refine ⟨?_, ?_⟩ <;> simp only [pollCore, hf, hfut, hpc, hgc]
                    · exact bufInvB_congr hgn.1 rfl rfl rfl rfl
                    · intro o ho bts hbts
                      subst hbts
                      simp at ho
        | chunkErr msg =>
            refine ⟨?_, ?_⟩ <;> simp only [pollCore, hf, hfut]
            · exact bufInvB_mono h _
            · intro o ho bts hbts
              subst hbts
              simp at ho
        | streamEnd =>
            rcases hse : process_stream_end s.buffer with ⟨buf1, fut2⟩
            have hl := process_stream_end_chunk_lists s.buffer
            rw [hse] at hl
            dsimp only at hl
            have hinv1 : BufInvB pre buf1 :=
              bufInvB_congr h hl.1 hl.2.2.2 hl.2.1 hl.2.2.1
            cases fut2 with
            | some sub2 =>
                refine ⟨?_, ?_⟩ <;> simp only [pollCore, hf, hfut, hse]
                · exact bufInvB_mono hinv1 _
                · intro o ho bts hbts
                  subst hbts
                  simp at ho
            | none =>
                rcases hgc : buf1.get_next_chunk with ⟨res, buf2⟩
                have hgn := get_next_chunk_inv (pre ++ [Event.streamEnd]) buf1
                  (bufInvB_mono hinv1 _)
                rw [hgc] at hgn
                dsimp only at hgn
                cases res with
                | some bts0 =>
                    refine ⟨?_, ?_⟩ <;> simp only [pollCore, hf, hfut, hse, hgc]
                    · exact bufInvB_congr hgn.1 rfl rfl rfl rfl
                    · intro o ho bts hbts
                      subst hbts
                      simp at ho
                      subst ho
                      exact Or.inr (hgn.2 _ rfl)
                | none =>
                    refine ⟨?_, ?_⟩ <;> simp only [pollCore, hf, hfut, hse, hgc]
                    · exact bufInvB_congr hgn.1 rfl rfl rfl rfl
                    · intro o ho bts hbts
                      subst hbts
                      simp at ho
        | assessOk a =>
            refine ⟨?_, ?_⟩ <;> simp only [pollCore, hf, hfut]
            · exact bufInvB_mono h _
            · intro o ho bts hbts
              subst hbts
              simp at ho
        | assessErr err =>
            refine ⟨?_, ?_⟩ <;> simp only [pollCore, hf, hfut]
            · exact bufInvB_mono h _
            · intro o ho bts hbts
              subst hbts
              simp at ho
        | notReady =>
            refine ⟨?_, ?_⟩ <;> simp only [pollCore, hf, hfut]
            · exact bufInvB_mono h _
            · intro o ho bts hbts
              subst hbts
              simp at ho

/-- One full `poll_next` invocation preserves the buffer invariant and every `Ok`
item it emits has a legitimate origin. -/
theorem pollOnce_inv (parse : String → Option String) (s : SAStream)
    (pre : List Event) (e : Event) (h : BufInvB pre s.buffer) :
    BufInvB (pre ++ [e]) (pollOnce parse s e).1.buffer
    ∧ ∀ o ∈ (pollOnce parse s e).2, ∀ bts, o = StepOut.item (.ok bts) →
        OkEmissionOrigin (pre ++ [e]) bts := by
  by_cases hb : s.buffer.blocked = true
  · refine ⟨?_, ?_⟩ <;> simp only [pollOnce, hb, if_true, ite_true]
    · exact bufInvB_mono h e
    · intro o ho bts hbts
      subst hbts
      simp at ho
  · rcases hgc : s.buffer.get_next_chunk with ⟨res, buf1⟩
    have hgn := get_next_chunk_inv pre s.buffer h
    rw [hgc] at hgn
    dsimp only at hgn
    have hcore := pollCore_inv parse { s with buffer := buf1 } pre e hgn.1
    cases res with
    | some bts0 =>
        refine ⟨?_, ?_⟩ <;> simp only [pollOnce, hb, hgc]
        · exact hcore.1
        · intro o ho bts hbts
          subst hbts
          rcases List.mem_cons.mp ho with hhd | htl
          · have : bts = bts0 := by
              simpa using hhd
            subst this
            exact Or.inr (okBatch_mono (hgn.2 _ rfl) e)
          · exact hcore.2 _ htl bts rfl
    | none =>
        refine ⟨?_, ?_⟩ <;> simp only [pollOnce, hb, hgc]
        · exact hcore.1
        · exact hcore.2

/-- Every `Ok` item emitted along any trace has a legitimate origin relative to the
event prefix consumed up to its emission. -/
theorem runOuts_sound (parse : String → Option String) :
    ∀ (evs : List Event) (s : SAStream) (pre : List Event), BufInvB pre s.buffer →
      ∀ (pr : List Event) (bts : String),
        (pr, StepOut.item (.ok bts)) ∈ runOuts parse s pre evs →
        OkEmissionOrigin pr bts := by
  intro evs
  induction evs with
  | nil =>
      intro s pre _ pr bts hmem
      simp [runOuts] at hmem
  | cons e rest ih =>
      intro s pre h pr bts hmem
      have hstep := pollOnce_inv parse s pre e h
      rw [runOuts] at hmem
      rcases List.mem_append.mp hmem with hin | hin
      · obtain ⟨o, ho, heq⟩ := List.mem_map.mp hin
        injection heq with h1 h2
        subst h1
        exact hstep.2 o ho bts h2
      · exact ih (pollOnce parse s e).1 (pre ++ [e]) hstep.1 pr bts hin

/-- **C1** (amended): every chunk the assessed stream hands to the client that is
not the synthesized blocked envelope of an unsafe verdict is a batch of previously
received upstream chunks, all of which had been received before a safe
(`allow`/mask) verdict that completed no later than the emission; every incoming
chunk is first held in the pending buffer and held chunks are only moved to the
emission buffers by the processing of a safe assessment result. (The claim's
remaining clause — that an assessment is issued whenever none is in flight — is
false of the code and dropped: see the counterexample.) -/
theorem c1_no_unassessed_emission (parse : String → Option String) (ip : Bool)
    (evs pr : List Event) (bts : String)
    (hmem : (pr, StepOut.item (.ok bts)) ∈ runOuts parse (SAStream.new ip) [] evs) :
    OkEmissionOrigin pr bts :=
  runOuts_sound parse evs (SAStream.new ip) []
    ⟨fun c hc => absurd hc (List.not_mem_nil c), rfl,
      fun hne => absurd rfl hne⟩ pr bts hmem

/-- **C1** witness: on the concrete trace "one boundary-triggering chunk, then a
safe verdict", the emitted batch is traced back to a safe verdict covering it. -/
theorem c1_witness :
    OkEmissionOrigin
      [Event.chunkOk "hello world sentence\n", Event.assessOk allowAssessment]
      "hello world sentence\n" :=
  c1_no_unassessed_emission idContentParse false
    [Event.chunkOk "hello world sentence\n", Event.assessOk allowAssessment]
    [Event.chunkOk "hello world sentence\n", Event.assessOk allowAssessment]
    "hello world sentence\n" (by decide)

end PanwProxy
